import Mathlib

/-!
Verification development for the task-flow-api backend: a shallow embedding
of its real-time room-authorization and event-fan-out core (socketManager,
the Pusher channel-authorization endpoint) and of the REST mutation handlers
the claims refer to (task update, task create, list reorder), together with
theorems settling the specification claims.

Strings from the TypeScript source are embedded as lists of characters
(`Str`), MongoDB ObjectIds as their string form, and the mutable maps of the
Socket.IO adapter (room -> set of socket ids, socket id -> set of rooms) as
association lists.  Asynchronous handlers are embedded as pure functions from
the state snapshot they observe when their awaited lookup resolves.
-/

namespace TaskFlow

/-- Characters of a JavaScript string. -/
abbrev Str := List Char

/-- Embed a Lean string literal as a `Str`. -/
def str (s : String) : Str :=
  s.data

/-- One character of the hex alphabet accepted by MongoDB ObjectIds. -/
def isHexChar (c : Char) : Bool :=
  c.isDigit || ('a' ≤ c && c ≤ 'f') || ('A' ≤ c && c ≤ 'F')

/-- mongoose.Types.ObjectId.isValid on a string argument: the 24-character
hexadecimal ObjectId format of the persistence store. -/
def isValidObjectId (s : Str) : Bool :=
  s.length == 24 && s.all isHexChar

/-- A persisted board record: the shape consumed by the authorization core
(models/Board.ts; `title`, `description` and timestamps are carried along
but never read by the core). -/
structure Board where
  id : Str
  title : Str
  description : Str
  createdBy : Str
  members : List Str
deriving DecidableEq, Repr

/-- Board.findById over the persisted board collection. -/
def findBoard (db : List Board) (i : Str) : Option Board :=
  db.find? (fun b => b.id == i)

/-- Room derived from a board id: the template literal board:${boardId} in
socketManager.ts. -/
def roomName (boardId : Str) : Str :=
  str "board:" ++ boardId

/-- Error message emitted when the board id fails format validation. -/
def invalidIdMsg : Str :=
  str "Invalid board ID format"

/-- Error message emitted when no board with the requested id exists. -/
def notFoundMsg : Str :=
  str "Board not found"

/-- Error message emitted when the user is neither creator nor member. -/
def forbiddenMsg : Str :=
  str "Access denied: You are not a member of this board"

/-- The message a join-board request sends back on the requesting socket:
either an error event carrying a reason, or the joined-board acknowledgment
carrying the board id. -/
inductive JoinReply where
  | errorMsg (message : Str)
  | joinedAck (boardId : Str)
deriving DecidableEq, Repr

/-- First value stored under a key in an association list (Map.get). -/
def alGet? {κ ν : Type} [BEq κ] (m : List (κ × ν)) (k : κ) : Option ν :=
  (m.find? (fun p => p.1 == k)).map (fun p => p.2)

/-- Store a value under a key in an association list, replacing the existing
entry for that key or appending a fresh one (Map.set). -/
def alSet {κ ν : Type} [BEq κ] (m : List (κ × ν)) (k : κ) (v : ν) : List (κ × ν) :=
  match m with
  | [] => [(k, v)]
  | p :: rest => if p.1 == k then (k, v) :: rest else p :: alSet rest k v

/-- Remove the entry stored under a key in an association list (Map.delete). -/
def alRemove {κ ν : Type} [BEq κ] (m : List (κ × ν)) (k : κ) : List (κ × ν) :=
  m.eraseP (fun p => p.1 == k)

/-- JavaScript Set.add on a duplicate-free list: append the element unless
already present. -/
def setAdd {α : Type} [BEq α] (s : List α) (a : α) : List α :=
  if s.contains a then s else s ++ [a]

/-- The Socket.IO in-memory adapter state: the map from each room to the set
of socket ids inside it, and the map from each socket id to the set of rooms
it has joined. -/
structure Adapter where
  rooms : List (Str × List Nat)
  sids : List (Nat × List Str)
deriving DecidableEq, Repr

/-- Adapter.addAll restricted to a single room, as invoked by socket.join:
ensure both maps have an entry and add the (socket, room) pair to each. -/
def Adapter.addAll (st : Adapter) (sid : Nat) (room : Str) : Adapter :=
  { rooms := alSet st.rooms room (setAdd ((alGet? st.rooms room).getD []) sid),
    sids := alSet st.sids sid (setAdd ((alGet? st.sids sid).getD []) room) }

/-- The room-side half of Adapter.del: drop the socket id from the room's
set and delete the room entry entirely once its set is empty. -/
def Adapter.roomDel (rooms : List (Str × List Nat)) (room : Str) (sid : Nat) :
    List (Str × List Nat) :=
  match alGet? rooms room with
  | none => rooms
  | some s =>
    let s' := s.erase sid
    if s'.isEmpty then alRemove rooms room else alSet rooms room s'

/-- Adapter.del, as invoked by socket.leave: remove the room from the
socket's joined set (when the socket has an entry) and the socket from the
room's set. -/
def Adapter.del (st : Adapter) (sid : Nat) (room : Str) : Adapter :=
  { rooms := Adapter.roomDel st.rooms room sid,
    sids :=
      match alGet? st.sids sid with
      | none => st.sids
      | some l => alSet st.sids sid (l.erase room) }

/-- Adapter.delAll, as invoked when a socket closes: remove the socket from
every room it had joined, then discard its joined-set entry. -/
def Adapter.delAll (st : Adapter) (sid : Nat) : Adapter :=
  match alGet? st.sids sid with
  | none => st
  | some rms =>
    { rooms := rms.foldl (fun acc room => Adapter.roomDel acc room sid) st.rooms,
      sids := alRemove st.sids sid }

/-- The Socket.IO server state the fan-out core manipulates: the adapter's
two room maps plus the namespace's registry of currently connected socket
ids (nsp.sockets). -/
structure SocketServer where
  adapter : Adapter
  sockets : List Nat
deriving DecidableEq, Repr

/-- A transport handshake that passed the authentication middleware: the
socket id is recorded in the namespace registry. -/
def SocketServer.connect (st : SocketServer) (sid : Nat) : SocketServer :=
  { st with sockets := setAdd st.sockets sid }

/-- Transport close: the socket leaves every room it had joined and is
removed from the namespace registry. -/
def SocketServer.disconnect (st : SocketServer) (sid : Nat) : SocketServer :=
  { adapter := st.adapter.delAll sid, sockets := st.sockets.erase sid }

/-- Members of a room as recorded in the adapter's room map. -/
def roomMembers (st : SocketServer) (room : Str) : List Nat :=
  (alGet? st.adapter.rooms room).getD []

/-- Result of processing one join-board request: the reply emitted on the
requesting socket and the server state afterwards. -/
structure JoinResult where
  reply : JoinReply
  state : SocketServer
deriving DecidableEq, Repr

/-- The join-board handler of socketManager.ts, evaluated at the instant its
awaited Board.findById resolves against the store snapshot db: validate the
board id format, look the board up, check the user is the creator or a
member, and only then join the socket to the board room and acknowledge.
Each failure emits an error event and leaves the server state unchanged.
The handler does not consult the connection registry between the lookup and
socket.join. -/
def joinBoardHandler (db : List Board) (st : SocketServer) (sid : Nat)
    (userId boardId : Str) : JoinResult :=
  if !isValidObjectId boardId then
    { reply := .errorMsg invalidIdMsg, state := st }
  else
    match findBoard db boardId with
    | none => { reply := .errorMsg notFoundMsg, state := st }
    | some board =>
      let isCreator := board.createdBy == userId
      let isMember := board.members.any (fun m => m == userId)
      if !isCreator && !isMember then
        { reply := .errorMsg forbiddenMsg, state := st }
      else
        { reply := .joinedAck boardId,
          state := { st with adapter := st.adapter.addAll sid (roomName boardId) } }

/-- The leave-board handler of socketManager.ts: socket.leave on the board's
room, with no authorization check and no reply. -/
def leaveBoardHandler (st : SocketServer) (sid : Nat) (boardId : Str) : SocketServer :=
  { st with adapter := st.adapter.del sid (roomName boardId) }

/-- Socket ids an io.to(room).emit broadcast reaches: every id in the room's
adapter set whose socket is still present in the namespace registry (the
adapter skips ids whose socket has gone away). -/
def broadcastRecipients (st : SocketServer) (room : Str) : List Nat :=
  ((alGet? st.adapter.rooms room).getD []).filter (fun sid => st.sockets.contains sid)

/-- Observable outcome of one dispatcher emit call. -/
inductive EmitOutcome where
  | noop
  | delivered (recipients : List Nat) (event : Str)
deriving DecidableEq, Repr

/-- The throwing accessor getIO of socketManager.ts: raises when the module
level Socket.IO handle has not been initialized. -/
def getIo (io : Option SocketServer) : Except Str SocketServer :=
  match io with
  | none => .error (str "Socket.IO not initialized. Call initializeSocket first.")
  | some st => .ok st

/-- emitToBoardRoom of socketManager.ts: when the Socket.IO handle is not
initialized, log a warning and return (it does not call the throwing getIO);
otherwise broadcast the event to the board's room. -/
def emitToBoardRoom (io : Option SocketServer) (boardId : Str) (event : Str) : EmitOutcome :=
  match io with
  | none => .noop
  | some st => .delivered (broadcastRecipients st (roomName boardId)) event

/-- The channel name for a board in the Pusher transport variant:
getChannelName of the pusher socketManager, private-board-${boardId}. -/
def getChannelName (boardId : Str) : Str :=
  str "private-board-" ++ boardId

/-- The throwing accessor getPusher: raises when the Pusher client has not
been initialized. -/
def getPusher (p : Option Unit) : Except Str Unit :=
  match p with
  | none => .error (str "Pusher not initialized. Call initializePusher first.")
  | some u => .ok u

/-- Observable outcome of triggerBoardEvent in the Pusher dispatcher. -/
inductive TriggerOutcome where
  | caughtError
  | triggered (channel event : Str)
deriving DecidableEq, Repr

/-- triggerBoardEvent of the Pusher socketManager: calls the throwing
getPusher inside try/catch, so an uninitialized client is logged and
swallowed; otherwise the event is triggered on the board's channel. -/
def triggerBoardEvent (p : Option Unit) (boardId : Str) (event : Str) : TriggerOutcome :=
  match getPusher p with
  | .error _ => .caughtError
  | .ok _ => .triggered (getChannelName boardId) event

/-- A character the JavaScript regex . metacharacter matches: anything but a
line terminator. -/
def isRegexDot (c : Char) : Bool :=
  !(c == '\n' || c == '\r' || c == '\u2028' || c == '\u2029')

/-- channelName.match of the anchored pattern private-board-(.+)$ in
pusher.ts: succeeds exactly when the channel is the literal lead followed by
a nonempty run of non-line-terminator characters, returning the captured
board id. -/
def matchBoardChannel (channel : Str) : Option Str :=
  if (str "private-board-").isPrefixOf channel then
    let rest := channel.drop (str "private-board-").length
    if !rest.isEmpty && rest.all isRegexDot then some rest else none
  else none

/-- HTTP outcome of the POST /pusher/auth endpoint. -/
inductive PusherAuthResult where
  | badRequest
  | unauthorized
  | invalidChannel
  | invalidId
  | notFound
  | forbidden
  | serverError
  | granted (socketId channel : Str)
deriving DecidableEq, Repr

/-- The POST /pusher/auth handler of routes/pusher.ts: reject absent
parameters and an absent user identity, parse the channel name, then run the
same three checks as the socket join gate (valid ObjectId, board exists,
user is creator or member) and only then have the initialized Pusher client
sign the grant for the (socket, channel) pair.  An uninitialized client
makes getPusher throw into the catch-all, a 500. -/
def pusherAuthHandler (pusherInit : Bool) (db : List Board)
    (socketId channelName userId : Option Str) : PusherAuthResult :=
  match socketId, channelName with
  | some sid, some channel =>
    match userId with
    | none => .unauthorized
    | some uid =>
      match matchBoardChannel channel with
      | none => .invalidChannel
      | some boardId =>
        if !isValidObjectId boardId then .invalidId
        else
          match findBoard db boardId with
          | none => .notFound
          | some board =>
            let isCreator := board.createdBy == uid
            let isMember := board.members.any (fun m => m == uid)
            if !isCreator && !isMember then .forbidden
            else if pusherInit then .granted sid channel else .serverError
  | _, _ => .badRequest

/-- A persisted list record (models/List.ts): title, owning board and an
integer position used for ordering. -/
structure ListRec where
  id : Str
  title : Str
  boardId : Str
  position : Int
deriving DecidableEq, Repr

/-- A persisted task record (models/Task.ts). -/
structure TaskRec where
  id : Str
  title : Str
  description : Str
  listId : Str
  assignedTo : List Str
  labels : List Str
  dueDate : Option Int
  position : Int
deriving DecidableEq, Repr

/-- The three collections the REST handlers read and write. -/
structure Stores where
  boards : List Board
  lists : List ListRec
  tasks : List TaskRec
deriving DecidableEq, Repr

/-- List.findById. -/
def findList (ls : List ListRec) (i : Str) : Option ListRec :=
  ls.find? (fun l => l.id == i)

/-- Task.findById. -/
def findTask (ts : List TaskRec) (i : Str) : Option TaskRec :=
  ts.find? (fun t => t.id == i)

/-- The access check every REST handler runs once it has resolved the board:
requester must be in the member list or be the creator. -/
def hasBoardAccess (board : Board) (userId : Str) : Bool :=
  board.members.contains userId || board.createdBy == userId

/-- One call to a dispatcher emit helper, recording the target board and the
event kind; REST handlers are embedded together with the list of emit calls
they perform. -/
structure EmitCall where
  boardId : Str
  event : Str
deriving DecidableEq, Repr

/-- Request body of PUT /tasks/:taskId: any subset of the task fields may be
present. -/
structure TaskUpdateBody where
  title : Option Str
  description : Option Str
  listId : Option Str
  assignedTo : Option (List Str)
  labels : Option (List Str)
  dueDate : Option (Option Int)
  position : Option Int
deriving DecidableEq, Repr

/-- The update document the PUT /tasks/:taskId handler passes to
findByIdAndUpdate with $set semantics, after destructuring assignedTo and
position out of the body: every remaining present field overwrites the
stored one. -/
def applyTaskUpdate (t : TaskRec) (b : TaskUpdateBody) : TaskRec :=
  { t with
    title := b.title.getD t.title,
    description := b.description.getD t.description,
    listId := b.listId.getD t.listId,
    labels := b.labels.getD t.labels,
    dueDate := b.dueDate.getD t.dueDate }

/-- HTTP outcome of PUT /tasks/:taskId. -/
inductive UpdateTaskResult where
  | taskNotFound
  | listNotFound
  | boardNotFound
  | accessDenied
  | updated (task : TaskRec)
deriving DecidableEq, Repr

/-- The PUT /tasks/:taskId handler: resolve task, its list and its board,
check board access, strip the protected assignedTo and position fields from
the body, apply the rest with $set and respond with the updated task.  The
second component collects the dispatcher emit calls the handler performs. -/
def updateTaskHandler (s : Stores) (userId taskId : Str) (body : TaskUpdateBody) :
    UpdateTaskResult × List EmitCall :=
  match findTask s.tasks taskId with
  | none => (.taskNotFound, [])
  | some task =>
    match findList s.lists task.listId with
    | none => (.listNotFound, [])
    | some list =>
      match findBoard s.boards list.boardId with
      | none => (.boardNotFound, [])
      | some board =>
        if !hasBoardAccess board userId then (.accessDenied, [])
        else (.updated (applyTaskUpdate task body), [])

/-- Request body of POST /lists/:listId/tasks; listId, position and creator
are overwritten by the handler whatever the body carries. -/
structure NewTaskBody where
  title : Str
  description : Str
  assignedTo : List Str
  labels : List Str
  dueDate : Option Int
deriving DecidableEq, Repr

/-- Task.findOne({listId}).sort(-position): the stored task with the
greatest position, if any. -/
def lastByPosition (ts : List TaskRec) : Option TaskRec :=
  ts.foldl
    (fun acc t =>
      match acc with
      | none => some t
      | some m => if t.position > m.position then some t else some m)
    none

/-- HTTP outcome of POST /lists/:listId/tasks. -/
inductive CreateTaskResult where
  | listNotFound
  | boardNotFound
  | accessDenied
  | created (task : TaskRec)
deriving DecidableEq, Repr

/-- The POST /lists/:listId/tasks handler: resolve the list and its board,
check board access, compute the end-of-list position and save the new task
(the store assigns it the fresh id newId).  The second component collects
the dispatcher emit calls the handler performs. -/
def createTaskHandler (s : Stores) (userId listId newId : Str) (body : NewTaskBody) :
    CreateTaskResult × List EmitCall :=
  match findList s.lists listId with
  | none => (.listNotFound, [])
  | some list =>
    match findBoard s.boards list.boardId with
    | none => (.boardNotFound, [])
    | some board =>
      if !hasBoardAccess board userId then (.accessDenied, [])
      else
        let position :=
          match lastByPosition (s.tasks.filter (fun t => t.listId == list.id)) with
          | some lastTask => lastTask.position + 1
          | none => 0
        (.created
          { id := newId,
            title := body.title,
            description := body.description,
            listId := list.id,
            assignedTo := body.assignedTo,
            labels := body.labels,
            dueDate := body.dueDate,
            position := position }, [])

/-- Insert a list record behind every already-placed record whose position
is not greater, so the sort below is stable. -/
def insertByPosition (l : ListRec) : List ListRec → List ListRec
  | [] => [l]
  | x :: xs =>
    if x.position ≤ l.position then x :: insertByPosition l xs else l :: x :: xs

/-- Stable ascending insertion sort by position. -/
def sortByPosition (ls : List ListRec) : List ListRec :=
  ls.foldr insertByPosition []

/-- List.find({boardId}).sort(position): the board's lists in ascending
position order. -/
def boardListsSorted (ls : List ListRec) (boardId : Str) : List ListRec :=
  sortByPosition (ls.filter (fun l => l.boardId == boardId))

/-- HTTP outcome of PUT /lists/:listId/position; okUpdated carries the
board's lists as persisted by the per-list findByIdAndUpdate writes. -/
inductive ListPosResult where
  | invalidPosition
  | listNotFound
  | boardNotFound
  | accessDenied
  | okUpdated (written : List ListRec)
deriving DecidableEq, Repr

/-- The PUT /lists/:listId/position handler of the clamped reorder variant:
reject a non-numeric position, resolve the list and its board, check access,
fetch the board's lists sorted by position, splice the moved list out of its
current index when present, clamp the requested position into the remaining
range, splice the list back in at the clamped index and rewrite every
position to its new array index. -/
def updateListPositionHandler (s : Stores) (userId listId : Str) (position : Option Int) :
    ListPosResult × List EmitCall :=
  match position with
  | none => (.invalidPosition, [])
  | some pos =>
    match findList s.lists listId with
    | none => (.listNotFound, [])
    | some list =>
      match findBoard s.boards list.boardId with
      | none => (.boardNotFound, [])
      | some board =>
        if !hasBoardAccess board userId then (.accessDenied, [])
        else
          let lists := boardListsSorted s.lists board.id
          let lists1 :=
            if (lists.findIdx? (fun l => l.id == list.id)).isSome then
              lists.eraseP (fun l => l.id == list.id)
            else lists
          let clamped : Int := max 0 (min pos (lists1.length : Int))
          let lists2 := lists1.insertIdx clamped.toNat list
          (.okUpdated (lists2.enum.map (fun p => { p.2 with position := (p.1 : Int) })), [])

/-! ### Concrete fixtures used by witnesses and counterexamples -/

/-- A well-formed 24-character hexadecimal board id. -/
def bId24 : Str :=
  str "aaaaaaaaaaaaaaaaaaaaaaaa"

/-- Identity of the board creator in the fixtures. -/
def uAlice : Str :=
  str "111111111111111111111111"

/-- Identity of a plain board member in the fixtures. -/
def uBob : Str :=
  str "222222222222222222222222"

/-- Identity of a user with no relation to the fixture board. -/
def uEve : Str :=
  str "333333333333333333333333"

/-- A board created by Alice with Bob as its only listed member. -/
def boardOne : Board :=
  { id := bId24, title := str "board one", description := str "",
    createdBy := uAlice, members := [uBob] }

/-- Store holding just `boardOne`. -/
def dbOne : List Board :=
  [boardOne]

/-- The same board after Bob's membership was revoked. -/
def boardOneNoBob : Board :=
  { id := bId24, title := str "board one", description := str "",
    createdBy := uAlice, members := [] }

/-- Store holding just `boardOneNoBob`. -/
def dbNoBob : List Board :=
  [boardOneNoBob]

/-- A freshly started Socket.IO server: no rooms, no sockets. -/
def emptyServer : SocketServer :=
  { adapter := { rooms := [], sids := [] }, sockets := [] }

/-- Adapter fixture for the C8 witness: socket 1 joined to the board room,
socket 2 registered with an empty joined-set. -/
def adapterW : Adapter :=
  { rooms := [(roomName bId24, [1])], sids := [(1, [roomName bId24]), (2, [])] }

/-- A second valid board id, distinct from `bId24`. -/
def bIdB : Str :=
  str "bbbbbbbbbbbbbbbbbbbbbbbb"

/-- Server fixture for the C1 witness: socket 0 joined to board `bId24`'s
room, socket 1 joined only to board `bIdB`'s room, both connected. -/
def serverTwoRooms : SocketServer :=
  { adapter :=
      { rooms := [(roomName bId24, [0]), (roomName bIdB, [1])],
        sids := [(0, [roomName bId24]), (1, [roomName bIdB])] },
    sockets := [0, 1] }

/-- Server fixture after the C6 race: the board room's set holds the stale
socket 0 and the live socket 1, but only socket 1 is still registered. -/
def serverStale : SocketServer :=
  { adapter :=
      { rooms := [(roomName bId24, [0, 1])],
        sids := [(0, [roomName bId24]), (1, [roomName bId24])] },
    sockets := [1] }

/-- Id of the fixture list on `boardOne`. -/
def lIdD : Str :=
  str "dddddddddddddddddddddddd"

/-- Fresh id the store assigns to a newly created task. -/
def tIdE : Str :=
  str "eeeeeeeeeeeeeeeeeeeeeeee"

/-- A list living on `boardOne`. -/
def listOne : ListRec :=
  { id := lIdD, title := str "todo", boardId := bId24, position := 0 }

/-- Stores holding `boardOne` and `listOne` and no task. -/
def storesOne : Stores :=
  { boards := dbOne, lists := [listOne], tasks := [] }

/-- A well-formed create-task request body. -/
def newTaskBody : NewTaskBody :=
  { title := str "write spec", description := str "", assignedTo := [], labels := [],
    dueDate := none }

/-- The stored task the C9 witness updates: position 7, assigned to Bob. -/
def taskOne : TaskRec :=
  { id := tIdE, title := str "task", description := str "", listId := lIdD,
    assignedTo := [uBob], labels := [], dueDate := none, position := 7 }

/-- Stores holding the fixture board, list and task. -/
def storesWithTask : Stores :=
  { boards := dbOne, lists := [listOne], tasks := [taskOne] }

/-- A request body that tries to overwrite the protected fields. -/
def sneakyBody : TaskUpdateBody :=
  { title := some (str "renamed"), description := none, listId := none,
    assignedTo := some [], labels := none, dueDate := none, position := some 99 }

/-- Three lists on the fixture board, at positions 0, 1 and 2. -/
def listL0 : ListRec :=
  { id := str "f0f0f0f0f0f0f0f0f0f0f0f0", title := str "zero", boardId := bId24,
    position := 0 }

/-- Second fixture list. -/
def listL1 : ListRec :=
  { id := str "f1f1f1f1f1f1f1f1f1f1f1f1", title := str "one", boardId := bId24,
    position := 1 }

/-- Third fixture list. -/
def listL2 : ListRec :=
  { id := str "f2f2f2f2f2f2f2f2f2f2f2f2", title := str "two", boardId := bId24,
    position := 2 }

/-- Stores with the fixture board carrying three lists. -/
def storesLists : Stores :=
  { boards := dbOne, lists := [listL0, listL1, listL2], tasks := [] }

/-! ### Association-list and set lemmas -/

theorem alGet?_alSet_self {κ ν : Type} [BEq κ] [LawfulBEq κ] (m : List (κ × ν)) (k : κ) (v : ν) :
    alGet? (alSet m k v) k = some v := by
  induction m with
  | nil => simp [alGet?, alSet]
  | cons p rest ih =>
    by_cases h : p.1 == k
    · simp [alSet, h, alGet?]
    · simp only [alSet, h, if_neg, Bool.false_eq_true, not_false_eq_true, if_false]
      simpa [alGet?, List.find?, h] using ih

theorem alSet_alSet_self {κ ν : Type} [BEq κ] [LawfulBEq κ] (m : List (κ × ν)) (k : κ) (v w : ν) :
    alSet (alSet m k v) k w = alSet m k w := by
  induction m with
  | nil => simp [alSet]
  | cons p rest ih =>
    by_cases h : p.1 == k
    · simp [alSet, h]
    · simp [alSet, h, ih]

theorem alSet_of_alGet?_self {κ ν : Type} [BEq κ] [LawfulBEq κ] (m : List (κ × ν)) (k : κ) (v : ν)
    (h : alGet? m k = some v) : alSet m k v = m := by
  induction m with
  | nil => simp [alGet?] at h
  | cons p rest ih =>
    by_cases hp : p.1 == k
    · simp only [alGet?, List.find?, hp, Option.map_some'] at h
      simp only [alSet, hp, if_true]
      have : p = (k, v) := by
        cases p with
        | mk a b =>
          simp only at hp h
          exact congrArg₂ Prod.mk (by simpa using hp) (by simpa using h)
      rw [← this]
    · simp only [alGet?, List.find?, hp] at h
      simp [alSet, hp, ih (by simpa [alGet?] using h)]

theorem setAdd_contains {α : Type} [BEq α] [LawfulBEq α] (s : List α) (a : α) :
    (setAdd s a).contains a = true := by
  by_cases h : a ∈ s
  · simp [setAdd, h]
  · simp [setAdd, h]

theorem setAdd_idem {α : Type} [BEq α] [LawfulBEq α] (s : List α) (a : α) :
    setAdd (setAdd s a) a = setAdd s a := by
  by_cases h : a ∈ s <;> simp [setAdd, h]

/-! ### C2: the Room Authorization Gate runs its checks in order -/

/-- C2.  The join-board gate short-circuits in order: a syntactically
invalid id is rejected as such whatever the store holds; a valid id with no
matching board is rejected as not found whoever asks; a valid id whose
board excludes the requesting user is rejected as forbidden; and otherwise
the socket is joined to the room derived from the board id and the
acknowledgment carries the board id.  Every rejection leaves the server
state untouched. -/
theorem joinGate_checks_in_order (db : List Board) (st : SocketServer) (sid : Nat)
    (u bid : Str) :
    (isValidObjectId bid = false →
      joinBoardHandler db st sid u bid = ⟨.errorMsg invalidIdMsg, st⟩)
    ∧ (isValidObjectId bid = true → findBoard db bid = none →
      joinBoardHandler db st sid u bid = ⟨.errorMsg notFoundMsg, st⟩)
    ∧ (∀ b, isValidObjectId bid = true → findBoard db bid = some b →
      b.createdBy ≠ u → u ∉ b.members →
      joinBoardHandler db st sid u bid = ⟨.errorMsg forbiddenMsg, st⟩)
    ∧ (∀ b, isValidObjectId bid = true → findBoard db bid = some b →
      (b.createdBy = u ∨ u ∈ b.members) →
      joinBoardHandler db st sid u bid =
        ⟨.joinedAck bid, { st with adapter := st.adapter.addAll sid (roomName bid) }⟩) := by
  refine ⟨?_, ?_, ?_, ?_⟩
  · intro hv
    simp [joinBoardHandler, hv]
  · intro hv hfb
    simp [joinBoardHandler, hv, hfb]
  · intro b hv hfb hcr hmem
    have hany : b.members.any (fun m => m == u) = false := by
      rw [Bool.eq_false_iff]
      intro hx
      rw [List.any_eq_true] at hx
      rcases hx with ⟨m, hm, hbe⟩
      rw [beq_iff_eq] at hbe
      subst hbe
      exact hmem hm
    simp [joinBoardHandler, hv, hfb, hany, hcr]
  · intro b hv hfb hok
    rcases hok with hcr | hmem
    · simp [joinBoardHandler, hv, hfb, hcr]
    · have hany : b.members.any (fun m => m == u) = true := by
        simp only [List.any_eq_true, beq_iff_eq]
        exact ⟨u, hmem, rfl⟩
      simp [joinBoardHandler, hv, hfb, hany]

/-- Witness for C2: on the fixture store, Eve's join of the valid board id
is rejected as forbidden. -/
theorem joinGate_checks_in_order_witness :
    joinBoardHandler dbOne emptyServer 0 uEve bId24 =
      ⟨.errorMsg forbiddenMsg, emptyServer⟩ :=
  (joinGate_checks_in_order dbOne emptyServer 0 uEve bId24).2.2.1 boardOne
    (by decide) (by decide) (by decide) (by decide)

/-! ### C3: authorization is re-evaluated against live membership -/

/-- C3.  The gate decision is recomputed from the live store on every join
request: whatever server state an earlier successful join of the same
(user, board) pair produced, a later join request evaluated against a store
in which the user is neither the creator nor a member is rejected with the
forbidden error, and leaves that state unchanged. -/
theorem membership_recheck_forbids (db1 db2 : List Board) (st : SocketServer) (sid : Nat)
    (u bid : Str) (r : JoinResult) (b : Board)
    (h1 : joinBoardHandler db1 st sid u bid = r)
    (h2 : r.reply = .joinedAck bid)
    (h3 : findBoard db2 bid = some b)
    (h4 : b.createdBy ≠ u)
    (h5 : u ∉ b.members) :
    joinBoardHandler db2 r.state sid u bid = ⟨.errorMsg forbiddenMsg, r.state⟩ := by
  have hv : isValidObjectId bid = true := by
    by_contra hvn
    have hvf : isValidObjectId bid = false := by
      cases hx : isValidObjectId bid
      · rfl
      · exact absurd hx hvn
    rw [← h1] at h2
    simp [joinBoardHandler, hvf] at h2
  have hany : b.members.any (fun m => m == u) = false := by
    rw [Bool.eq_false_iff]
    intro hx
    rw [List.any_eq_true] at hx
    rcases hx with ⟨m, hm, hbe⟩
    rw [beq_iff_eq] at hbe
    subst hbe
    exact h5 hm
  simp [joinBoardHandler, hv, h3, hany, h4]

/-- Witness for C3: Bob joins the fixture board while still a member and is
acknowledged; after his membership is revoked in the store, the same join
from the same connection is rejected as forbidden. -/
theorem membership_recheck_forbids_witness :
    joinBoardHandler dbNoBob
        (joinBoardHandler dbOne emptyServer 0 uBob bId24).state 0 uBob bId24 =
      ⟨.errorMsg forbiddenMsg, (joinBoardHandler dbOne emptyServer 0 uBob bId24).state⟩ :=
  membership_recheck_forbids dbOne dbNoBob emptyServer 0 uBob bId24
    (joinBoardHandler dbOne emptyServer 0 uBob bId24) boardOneNoBob
    rfl (by decide) (by decide) (by decide) (by decide)

/-! ### C8: join and leave are idempotent on the Registry state -/

/-- C8.  Joining a room the connection has already joined leaves the whole
adapter state, and in particular the size of the room's membership set,
unchanged after the second join; and leaving a room the connection never
joined (its id absent from the room's set, the room absent from its
joined-set, the room's stored set nonempty as the adapter only keeps
nonempty sets) returns the state unchanged, without error. -/
theorem registry_join_leave_idempotent (st : Adapter) (c : Nat) (r : Str)
    (hr : ∀ s, alGet? st.rooms r = some s → c ∉ s ∧ s ≠ [])
    (hs : ∀ l, alGet? st.sids c = some l → r ∉ l) :
    Adapter.addAll (Adapter.addAll st c r) c r = Adapter.addAll st c r
    ∧ ((alGet? (Adapter.addAll (Adapter.addAll st c r) c r).rooms r).getD []).length
        = ((alGet? (Adapter.addAll st c r).rooms r).getD []).length
    ∧ Adapter.del st c r = st := by
  have hidem : Adapter.addAll (Adapter.addAll st c r) c r = Adapter.addAll st c r := by
    unfold Adapter.addAll
    simp only [alGet?_alSet_self, Option.getD_some, setAdd_idem, alSet_alSet_self]
  refine ⟨hidem, by rw [hidem], ?_⟩
  unfold Adapter.del Adapter.roomDel
  cases hgr : alGet? st.rooms r with
  | none =>
    cases hgs : alGet? st.sids c with
    | none => rfl
    | some l =>
      have hrl : r ∉ l := hs l hgs
      dsimp only
      rw [List.erase_of_not_mem hrl, alSet_of_alGet?_self _ _ _ hgs]
  | some s =>
    obtain ⟨hcs, hne⟩ := hr s hgr
    simp only [List.erase_of_not_mem hcs]
    have hie : s.isEmpty = false := by
      cases s with
      | nil => exact absurd rfl hne
      | cons x xs => rfl
    rw [hie]
    simp only [Bool.false_eq_true, if_false]
    rw [alSet_of_alGet?_self _ _ _ hgr]
    cases hgs : alGet? st.sids c with
    | none => rfl
    | some l =>
      have hrl : r ∉ l := hs l hgs
      dsimp only
      rw [List.erase_of_not_mem hrl, alSet_of_alGet?_self _ _ _ hgs]

/-- Witness for C8: on the fixture adapter, a second join of socket 2 to the
board room changes nothing, and socket 2 leaving the board room it never
joined returns the adapter unchanged. -/
theorem registry_join_leave_idempotent_witness :
    Adapter.addAll (Adapter.addAll adapterW 2 (roomName bId24)) 2 (roomName bId24)
        = Adapter.addAll adapterW 2 (roomName bId24)
    ∧ ((alGet? (Adapter.addAll (Adapter.addAll adapterW 2 (roomName bId24)) 2
          (roomName bId24)).rooms (roomName bId24)).getD []).length
        = ((alGet? (Adapter.addAll adapterW 2 (roomName bId24)).rooms
          (roomName bId24)).getD []).length
    ∧ Adapter.del adapterW 2 (roomName bId24) = adapterW :=
  registry_join_leave_idempotent adapterW 2 (roomName bId24)
    (by
      intro s h
      rw [show alGet? adapterW.rooms (roomName bId24) = some [1] from rfl] at h
      injection h with h2
      subst h2
      decide)
    (by
      intro l h
      rw [show alGet? adapterW.sids 2 = some [] from rfl] at h
      injection h with h2
      subst h2
      decide)

/-! ### C1: fan-out is scoped to the target board room -/

/-- C1.  An emit for board A is delivered only to connections inside
room(A) at the instant of the call: every recipient is a member of room(A)
in the current registry state, and a connection not in room(A), in
particular one joined only to some other room or to no room at all,
receives nothing. -/
theorem emit_scoped_to_room (st : SocketServer) (a e : Str) (rc : List Nat)
    (h : emitToBoardRoom (some st) a e = .delivered rc e) :
    (∀ c, c ∈ rc → c ∈ roomMembers st (roomName a))
    ∧ (∀ c, c ∉ roomMembers st (roomName a) → c ∉ rc) := by
  have hrc : broadcastRecipients st (roomName a) = rc := by
    simpa [emitToBoardRoom] using h
  subst hrc
  constructor
  · intro c hc
    exact (List.mem_filter.mp hc).1
  · intro c hcm hc
    exact hcm (List.mem_filter.mp hc).1

/-- Witness for C1: emitting to board `bId24` on the two-room fixture
reaches exactly the member of its room; socket 1, joined only to the other
room, is excluded. -/
theorem emit_scoped_to_room_witness :
    (∀ c, c ∈ [0] → c ∈ roomMembers serverTwoRooms (roomName bId24))
    ∧ (∀ c, c ∉ roomMembers serverTwoRooms (roomName bId24) → c ∉ [0]) :=
  emit_scoped_to_room serverTwoRooms bId24 (str "task:created") [0] rfl

/-! ### C4: the dispatcher's emit never raises to its caller -/

/-- C4.  emitToBoardRoom guards the uninitialized handle itself instead of
calling the throwing getIO accessor, so emitting before initialization is a
silent no-op; the Pusher variant reaches its throwing accessor only inside
try/catch, so it also completes; and emitting to a board whose room has no
entry in the adapter (zero joined connections) completes normally,
delivering to nobody. -/
theorem emit_never_raises :
    (∀ bid e, emitToBoardRoom none bid e = .noop)
    ∧ (∀ st, getIo none ≠ .ok st)
    ∧ (∀ bid e, triggerBoardEvent none bid e = .caughtError)
    ∧ (∀ st bid e, alGet? st.adapter.rooms (roomName bid) = none →
        emitToBoardRoom (some st) bid e = .delivered [] e) := by
  refine ⟨fun bid e => rfl, fun st h => by simp [getIo] at h, fun bid e => rfl, ?_⟩
  intro st bid e h
  simp [emitToBoardRoom, broadcastRecipients, h]

/-- Witness for C4: on a freshly started server, an emit for the fixture
board id completes and delivers to the empty set of connections. -/
theorem emit_never_raises_witness :
    emitToBoardRoom (some emptyServer) bId24 (str "task:created")
      = .delivered [] (str "task:created") :=
  emit_never_raises.2.2.2 emptyServer bId24 (str "task:created") rfl

/-! ### C6: a join resolving after disconnect -/

/-- C6 counterexample: socket 0 connects and disconnects; when the pending
join's board lookup then resolves, the handler (which performs no
still-registered check) acknowledges the join and the room's member set
gains the already-unregistered socket 0, contradicting the claim that such
a join is a no-op and that a room never gains an unregistered connection. -/
theorem join_after_disconnect_gains_room :
    (joinBoardHandler dbOne ((emptyServer.connect 0).disconnect 0) 0 uAlice bId24).reply
        = .joinedAck bId24
    ∧ ((joinBoardHandler dbOne ((emptyServer.connect 0).disconnect 0) 0
        uAlice bId24).state).sockets = []
    ∧ 0 ∈ roomMembers
        (joinBoardHandler dbOne ((emptyServer.connect 0).disconnect 0) 0
          uAlice bId24).state (roomName bId24) := by
  decide

/-- C6 as amended: the handler adds the stale socket id to the room's set,
but the broadcast path skips every socket id absent from the namespace
registry, so a connection unregistered before its join completed never
receives any emitted event. -/
theorem unregistered_connection_receives_nothing (st : SocketServer) (bid e : Str)
    (rc : List Nat) (c : Nat)
    (h1 : emitToBoardRoom (some st) bid e = .delivered rc e)
    (h2 : c ∉ st.sockets) :
    c ∉ rc := by
  have hrc : broadcastRecipients st (roomName bid) = rc := by
    simpa [emitToBoardRoom] using h1
  subst hrc
  intro hc
  have hcontains := (List.mem_filter.mp hc).2
  exact h2 (by simpa using hcontains)

/-- Witness for amended C6: on the stale fixture an emit reaches only the
registered socket 1; the unregistered socket 0 present in the room's set
receives nothing. -/
theorem unregistered_connection_receives_nothing_witness :
    0 ∉ [1] :=
  unregistered_connection_receives_nothing serverStale bId24 (str "task:created")
    [1] 0 rfl (by decide)

/-! ### Sorting and channel-parsing lemmas -/

theorem insertByPosition_perm (l : ListRec) (xs : List ListRec) :
    (insertByPosition l xs).Perm (l :: xs) := by
  induction xs with
  | nil => exact List.Perm.refl _
  | cons x xs ih =>
    unfold insertByPosition
    by_cases h : x.position ≤ l.position
    · simp only [h, if_true]
      exact (List.Perm.cons x ih).trans (List.Perm.swap l x xs)
    · simp only [h, if_false]
      exact List.Perm.refl _

theorem sortByPosition_perm (ls : List ListRec) : (sortByPosition ls).Perm ls := by
  induction ls with
  | nil => exact List.Perm.refl _
  | cons x xs ih =>
    exact (insertByPosition_perm x (sortByPosition xs)).trans (List.Perm.cons x ih)

theorem enum_map_fst_cast {α : Type} (l : List α) :
    l.enum.map (fun p => Int.ofNat p.1) = (List.range l.length).map Int.ofNat := by
  rw [← List.enum_map_fst, List.map_map]
  rfl

theorem isPrefixOf_append_self (l r : List Char) : l.isPrefixOf (l ++ r) = true := by
  induction l with
  | nil => simp [List.isPrefixOf]
  | cons a t ih => simp [List.isPrefixOf, ih]

theorem matchBoardChannel_append (r : Str) :
    matchBoardChannel (str "private-board-" ++ r)
      = if !r.isEmpty && r.all isRegexDot then some r else none := by
  unfold matchBoardChannel
  rw [isPrefixOf_append_self]
  simp only [if_true]
  rw [List.drop_left]

theorem hexChar_isRegexDot (c : Char) (h : isHexChar c = true) : isRegexDot c = true := by
  unfold isRegexDot
  simp only [Bool.not_eq_true']
  simp only [Bool.or_eq_false_iff, beq_eq_false_iff_ne, ne_eq]
  refine ⟨⟨⟨?_, ?_⟩, ?_⟩, ?_⟩ <;> rintro rfl <;> simp [isHexChar] at h

theorem validObjectId_matches_dot (s : Str) (h : isValidObjectId s = true) :
    (!s.isEmpty && s.all isRegexDot) = true := by
  unfold isValidObjectId at h
  rw [Bool.and_eq_true] at h
  obtain ⟨hlen, hall⟩ := h
  rw [Bool.and_eq_true]
  constructor
  · cases s with
    | nil => simp at hlen
    | cons c cs => rfl
  · rw [List.all_eq_true] at hall ⊢
    intro x hx
    exact hexChar_isRegexDot x (hall x hx)

/-! ### C7: the HTTP grant endpoint and the socket join gate agree -/

/-- C7.  For one user identity, one raw board id and one persisted board
state, the POST /pusher/auth endpoint issues a grant for the board's
channel exactly when the socket join-board handler would acknowledge a join
of that board: both run the identical three checks (valid ObjectId, board
exists, user is creator or member). -/
theorem pusher_grant_iff_socket_admit (db : List Board) (st : SocketServer) (c : Nat)
    (sid u rawId : Str) :
    pusherAuthHandler true db (some sid) (some (getChannelName rawId)) (some u)
        = .granted sid (getChannelName rawId)
    ↔ (joinBoardHandler db st c u rawId).reply = .joinedAck rawId := by
  unfold pusherAuthHandler joinBoardHandler
  rw [getChannelName]
  dsimp only
  rw [matchBoardChannel_append]
  by_cases hv : isValidObjectId rawId = true
  · rw [validObjectId_matches_dot rawId hv]
    simp only [if_true, hv, Bool.not_true, Bool.false_eq_true, if_false]
    cases hfb : findBoard db rawId with
    | none => simp
    | some board =>
      by_cases hden : (!(board.createdBy == u) && !(board.members.any fun m => m == u)) = true
      · simp [hden]
      · have hdf : (!(board.createdBy == u) && !(board.members.any fun m => m == u)) = false := by
          cases hx : (!(board.createdBy == u) && !(board.members.any fun m => m == u))
          · rfl
          · exact absurd hx hden
        simp [hdf, getChannelName]
  · have hvf : isValidObjectId rawId = false := by
      cases hx : isValidObjectId rawId
      · rfl
      · exact absurd hx hv
    cases hP : (!rawId.isEmpty && rawId.all isRegexDot) <;> simp [hvf, hP]

/-! ### C5: REST mutation handlers and the dispatcher -/

/-- C5 evidence.  The POST /lists/:listId/tasks handler run by the board's
creator persists the new task and succeeds, yet performs zero dispatcher
emit calls — no route handler in the code base invokes any emit helper, so
the claimed one emit per successful mutation (here a task:created event)
never happens. -/
theorem createTask_succeeds_with_zero_emits :
    (∃ t, (createTaskHandler storesOne uAlice lIdD tIdE newTaskBody).1 = .created t)
    ∧ (createTaskHandler storesOne uAlice lIdD tIdE newTaskBody).2 = [] :=
  ⟨⟨_, rfl⟩, rfl⟩

/-! ### C9: PUT /tasks/:taskId never changes position or assignedTo -/

/-- C9.  Whenever the general task-update endpoint succeeds, the updated
task it returns carries the stored task's position and assignedTo
unchanged, whatever the request body contained: both fields are
destructured out of the body before the $set update is built. -/
theorem updateTask_preserves_position_and_assignment (s : Stores) (u tid : Str)
    (body : TaskUpdateBody) (t' : TaskRec) (ec : List EmitCall)
    (h : updateTaskHandler s u tid body = (.updated t', ec)) :
    ∃ t, findTask s.tasks tid = some t
      ∧ t'.position = t.position ∧ t'.assignedTo = t.assignedTo := by
  unfold updateTaskHandler at h
  cases hft : findTask s.tasks tid with
  | none => rw [hft] at h; simp at h
  | some task =>
    rw [hft] at h
    dsimp only at h
    cases hfl : findList s.lists task.listId with
    | none => rw [hfl] at h; simp at h
    | some list =>
      rw [hfl] at h
      dsimp only at h
      cases hfb : findBoard s.boards list.boardId with
      | none => rw [hfb] at h; simp at h
      | some board =>
        rw [hfb] at h
        dsimp only at h
        by_cases hacc : hasBoardAccess board u = true
        · simp only [hacc, Bool.not_true, Bool.false_eq_true, if_false] at h
          rw [Prod.mk.injEq] at h
          obtain ⟨h1, h2⟩ := h
          injection h1 with h1
          exact ⟨task, rfl, by rw [← h1]; rfl, by rw [← h1]; rfl⟩
        · have haccf : hasBoardAccess board u = false := by
            cases hx : hasBoardAccess board u
            · rfl
            · exact absurd hx hacc
          simp [haccf] at h

/-- Witness for C9: updating the fixture task with a body carrying
position 99 and an emptied assignedTo leaves both fields as stored. -/
theorem updateTask_preserves_witness :
    ∃ t, findTask storesWithTask.tasks tIdE = some t
      ∧ (applyTaskUpdate taskOne sneakyBody).position = t.position
      ∧ (applyTaskUpdate taskOne sneakyBody).assignedTo = t.assignedTo :=
  updateTask_preserves_position_and_assignment storesWithTask uAlice tIdE sneakyBody
    (applyTaskUpdate taskOne sneakyBody) [] rfl

/-! ### C10: list reorder rewrites positions 0..n-1 and clamps -/

/-- C10.  When the clamped reorder endpoint succeeds on a board with n
lists, the positions it writes back are exactly 0..n-1 in array order, and
the moved list lands at index clamp(position, 0, n-1): a requested position
below zero or beyond the last index is clamped, not rejected. -/
theorem listReorder_contiguous_and_clamped (s : Stores) (u lid : Str) (pos : Int)
    (out : List ListRec) (ec : List EmitCall)
    (h : updateListPositionHandler s u lid (some pos) = (.okUpdated out, ec)) :
    ∃ list board n k,
      findList s.lists lid = some list
      ∧ findBoard s.boards list.boardId = some board
      ∧ n = (s.lists.filter (fun l => l.boardId == board.id)).length
      ∧ k = (max 0 (min pos ((n : Int) - 1))).toNat
      ∧ out.length = n
      ∧ out.map ListRec.position = (List.range n).map Int.ofNat
      ∧ out[k]?.map ListRec.id = some lid
      ∧ out[k]?.map ListRec.position = some (k : Int) := by
  unfold updateListPositionHandler at h
  dsimp only at h
  cases hfl : findList s.lists lid with
  | none => rw [hfl] at h; simp at h
  | some list =>
    rw [hfl] at h
    dsimp only at h
    cases hfb : findBoard s.boards list.boardId with
    | none => rw [hfb] at h; simp at h
    | some board =>
      rw [hfb] at h
      dsimp only at h
      by_cases hacc : hasBoardAccess board u = true
      case neg =>
        have haccf : hasBoardAccess board u = false := by
          cases hx : hasBoardAccess board u
          · rfl
          · exact absurd hx hacc
        simp [haccf] at h
      simp only [hacc, Bool.not_true, Bool.false_eq_true, if_false] at h
      have hlid : list.id = lid := by
        have := List.find?_some hfl
        simpa using this
      have hmemL : list ∈ s.lists := List.mem_of_find?_eq_some hfl
      have hbid : board.id = list.boardId := by
        have := List.find?_some hfb
        simpa using this
      have hmemF : list ∈ s.lists.filter (fun l => l.boardId == board.id) := by
        rw [List.mem_filter]
        exact ⟨hmemL, by simp [hbid]⟩
      have hperm : (boardListsSorted s.lists board.id).Perm
          (s.lists.filter (fun l => l.boardId == board.id)) :=
        sortByPosition_perm _
      have hmemS : list ∈ boardListsSorted s.lists board.id := hperm.mem_iff.mpr hmemF
      have hfindIdx :
          ((boardListsSorted s.lists board.id).findIdx? (fun l => l.id == list.id)).isSome
            = true := by
        rw [List.findIdx?_isSome, List.any_eq_true]
        exact ⟨list, hmemS, by simp⟩
      simp only [hfindIdx, if_true] at h
      rw [Prod.mk.injEq] at h
      obtain ⟨h1, h2⟩ := h
      injection h1 with h1
      subst h1
      set n := (s.lists.filter (fun l => l.boardId == board.id)).length with hn
      set ls1 := (boardListsSorted s.lists board.id).eraseP (fun l => l.id == list.id)
        with hls1
      set kc := (max 0 (min pos ((ls1.length : Int)))).toNat with hkc
      clear_value kc
      clear_value ls1
      clear_value n
      have hn1 : 1 ≤ n := by
        rw [hn]
        exact List.length_pos_of_mem hmemF
      have hlen0 : (boardListsSorted s.lists board.id).length = n := by
        rw [hn]
        exact hperm.length_eq
      have hlen1 : ls1.length = n - 1 := by
        rw [hls1, List.length_eraseP_of_mem hmemS (by simp), hlen0]
      have hcast : (ls1.length : Int) = (n : Int) - 1 := by omega
      have hkeq : kc = (max 0 (min pos ((n : Int) - 1))).toNat := by
        rw [hkc, hcast]
      have hkle : kc ≤ ls1.length := by
        rw [hkc, Int.toNat_le]
        exact max_le (Int.natCast_nonneg _) (min_le_right _ _)
      have hlen2 : (ls1.insertIdx kc list).length = ls1.length + 1 :=
        List.length_insertIdx kc ls1 hkle
      have hklt : kc < (ls1.insertIdx kc list).length := by omega
      have hget2 : (ls1.insertIdx kc list)[kc]? = some list := by
        rw [List.getElem?_eq_getElem hklt]
        rw [List.getElem_insertIdx_self ls1 list kc hkle]
      refine ⟨list, board, n, kc, rfl, hfb, hn, hkeq, ?_, ?_, ?_, ?_⟩
      · rw [List.length_map, List.enum_length]
        omega
      · rw [List.map_map]
        rw [show (ListRec.position ∘
              fun p : Nat × ListRec => { p.2 with position := (p.1 : Int) })
            = fun p : Nat × ListRec => Int.ofNat p.1 from rfl]
        rw [enum_map_fst_cast, hlen2, hlen1, Nat.sub_add_cancel hn1]
      · rw [List.getElem?_map, List.getElem?_enum, hget2]
        simp [hlid]
      · rw [List.getElem?_map, List.getElem?_enum, hget2]
        simp

/-- Witness for C10: moving the first fixture list to the out-of-range
position 99 clamps it to the last index; the written positions are exactly
0, 1, 2. -/
theorem listReorder_contiguous_and_clamped_witness :
    ∃ list board n k,
      findList storesLists.lists (str "f0f0f0f0f0f0f0f0f0f0f0f0") = some list
      ∧ findBoard storesLists.boards list.boardId = some board
      ∧ n = (storesLists.lists.filter (fun l => l.boardId == board.id)).length
      ∧ k = (max 0 (min 99 ((n : Int) - 1))).toNat
      ∧ ([{ listL1 with position := 0 }, { listL2 with position := 1 },
          { listL0 with position := 2 }] : List ListRec).length = n
      ∧ ([{ listL1 with position := 0 }, { listL2 with position := 1 },
          { listL0 with position := 2 }] : List ListRec).map ListRec.position
          = (List.range n).map Int.ofNat
      ∧ (([{ listL1 with position := 0 }, { listL2 with position := 1 },
          { listL0 with position := 2 }] : List ListRec)[k]?).map ListRec.id
          = some (str "f0f0f0f0f0f0f0f0f0f0f0f0")
      ∧ (([{ listL1 with position := 0 }, { listL2 with position := 1 },
          { listL0 with position := 2 }] : List ListRec)[k]?).map ListRec.position
          = some (k : Int) :=
  listReorder_contiguous_and_clamped storesLists uAlice
    (str "f0f0f0f0f0f0f0f0f0f0f0f0") 99
    [{ listL1 with position := 0 }, { listL2 with position := 1 },
      { listL0 with position := 2 }] [] (by decide)

end TaskFlow
